import Mathlib

/-!
Verification of the stereo photogrammetry module (`photogrammetry.py`).

The module computes the 3D position of an object seen by two calibrated
cameras.  We embed the two classes `CameraModel` and `DoubleCameraModel`
shallowly:

* pixel coordinates and lengths become exact rationals (the Python code works
  on floats; all claims under scrutiny are about the exact algebra);
* the field of view `aov` enters every formula of the source only through
  the value `np.tan(self.aov / 2)`, so the embedded camera carries that
  tangent directly as the field `tanHalfAov`;
* the homogeneous transform matrices `T_c` and `T_d = np.linalg.inv(T_c)`
  are embedded as 3×3 rational matrices; `T_d` is written out explicitly and
  proved to be the (unique) inverse of `T_c`, which is exactly what
  `np.linalg.inv` returns up to floating point;
* `raise ValueError` becomes the `Except` monad with an error type that
  distinguishes the two failure messages (range violation in `to_central`,
  non-crossing lines of sight in `obj_dist`);
* Python's `int(...)` conversion (truncation toward zero) becomes `truncInt`.
-/

/-- The two distinct `ValueError`s the module raises: out-of-range pixel
coordinates in `to_central`, and non-crossing lines of sight in `obj_dist`. -/
inductive PGError where
  | rangeError
  | geometryError
deriving DecidableEq, Repr

/-- A single camera: frame width and height in pixels, and the tangent of half
the angle of view.  The source stores `aov` itself but uses it only through
`np.tan(self.aov / 2)` (in `obj_angle` and `obj_angle_err`); `tanHalfAov`
embeds that value. -/
structure CameraModel where
  width : ℚ
  height : ℚ
  tanHalfAov : ℚ
deriving DecidableEq, Repr

/-- The homogeneous Default→Central transform matrix `self.T_c`
(`[[1,0,0],[0,-1,0],[-width/2, height/2, 1]]`), acting on row vectors from the
left as in the source's `v @ T_c`. -/
def CameraModel.T_c (c : CameraModel) : Matrix (Fin 3) (Fin 3) ℚ :=
  Matrix.of ![![1, 0, 0], ![0, -1, 0], ![-c.width / 2, c.height / 2, 1]]

/-- The Central→Default matrix `self.T_d = np.linalg.inv(self.T_c)`, written
out in closed form; `T_d_eq_inv` below proves it equals `(T_c)⁻¹`. -/
def CameraModel.T_d (c : CameraModel) : Matrix (Fin 3) (Fin 3) ℚ :=
  Matrix.of ![![1, 0, 0], ![0, -1, 0], ![c.width / 2, c.height / 2, 1]]

/-- `CameraModel.to_central`: validates the coordinate ranges and applies
`T_c` to the homogeneous row vector `[x0, y0, 1]`, keeping the first two
components. -/
def CameraModel.to_central (c : CameraModel) (x0 y0 : ℚ) :
    Except PGError (ℚ × ℚ) :=
  if x0 < 0 ∨ y0 < 0 then .error .rangeError
  else if x0 > c.width ∨ y0 > c.height then .error .rangeError
  else
    let v := Matrix.vecMul ![x0, y0, 1] c.T_c
    .ok (v 0, v 1)

/-- `CameraModel.to_default`: applies `T_d` to `[x, y, 1]`, keeping the first
two components.  No validation, exactly as in the source. -/
def CameraModel.to_default (c : CameraModel) (x y : ℚ) : ℚ × ℚ :=
  let v := Matrix.vecMul ![x, y, 1] c.T_d
  (v 0, v 1)

/-- `CameraModel.obj_angle`: tangent of the bearing angle of pixel
`(x0, y0)`, namely `np.tan(aov/2) * x * 2 / width` with `x` the Central-CS
abscissa.  The `ValueError` of `to_central` propagates. -/
def CameraModel.obj_angle (c : CameraModel) (x0 y0 : ℚ) : Except PGError ℚ :=
  match c.to_central x0 y0 with
  | .error e => .error e
  | .ok p => .ok (c.tanHalfAov * p.1 * 2 / c.width)

/-- `CameraModel.obj_angle_err`: `np.tan(aov/2) * 2 / width`. -/
def CameraModel.obj_angle_err (c : CameraModel) : ℚ :=
  c.tanHalfAov * 2 / c.width

/-- The composite stereo model: left, right and virtual center camera plus
the baseline distance `self.d`. -/
structure DoubleCameraModel where
  left : CameraModel
  right : CameraModel
  center : CameraModel
  d : ℚ
deriving DecidableEq, Repr

/-- `DoubleCameraModel.obj_dist`: computes both bearing tangents, raises
`ValueError` (lines of sight do not cross) when `tl - tr <= 0`, otherwise
returns `self.d / (tl - tr)`. -/
def DoubleCameraModel.obj_dist (m : DoubleCameraModel) (lc rc : ℚ × ℚ) :
    Except PGError ℚ :=
  match m.left.obj_angle lc.1 lc.2 with
  | .error e => .error e
  | .ok tl =>
    match m.right.obj_angle rc.1 rc.2 with
    | .error e => .error e
    | .ok tr =>
      if tl - tr ≤ 0 then .error .geometryError
      else .ok (m.d / (tl - tr))

/-- `DoubleCameraModel.obj_dist_err`: first-order error propagation
`sqrt((dd_dtan*tl_err)^2 + (dd_dtan*tr_err)^2)` with
`dd_dtan = self.d / (tl - tr)**2`.  Note the source recomputes `tl`, `tr`
directly and performs no convergence check and no call to `obj_dist`. -/
noncomputable def DoubleCameraModel.obj_dist_err (m : DoubleCameraModel)
    (lc rc : ℚ × ℚ) : Except PGError ℝ :=
  match m.left.obj_angle lc.1 lc.2 with
  | .error e => .error e
  | .ok tl =>
    match m.right.obj_angle rc.1 rc.2 with
    | .error e => .error e
    | .ok tr =>
      let tl_err := m.left.obj_angle_err
      let tr_err := m.right.obj_angle_err
      let dd_dtan := m.d / (tl - tr) ^ 2
      .ok (Real.sqrt
        (((dd_dtan * tl_err) ^ 2 + (dd_dtan * tr_err) ^ 2 : ℚ)))

/-- Python's `int(...)` applied to a (real-valued) number: truncation toward
zero. -/
def truncInt (q : ℚ) : ℤ :=
  if 0 ≤ q then ⌊q⌋ else ⌈q⌉

/-- `DoubleCameraModel.obj_coords`: the full position solve of the source —
depth from `obj_dist`, bearing re-centered on the center camera, converted to
a Central-CS abscissa, then to Default CS; `y0` is `np.average` of the two
input ordinates; `x0` and `y0` pass through `int(...)`. -/
def DoubleCameraModel.obj_coords (m : DoubleCameraModel) (lc rc : ℚ × ℚ) :
    Except PGError (ℤ × ℤ × ℚ) :=
  match m.obj_dist lc rc with
  | .error e => .error e
  | .ok dist =>
    match m.left.obj_angle lc.1 lc.2 with
    | .error e => .error e
    | .ok tl =>
      let angle := tl - m.d / 2 / dist
      let x := angle / m.center.tanHalfAov * m.center.width / 2
      let y0 := (lc.2 + rc.2) / 2
      let x0 := (m.center.to_default x 0).1
      .ok (truncInt x0, truncInt y0, dist)

/-- The in-range predicate of the data model: `0 ≤ x0 ≤ width` and
`0 ≤ y0 ≤ height`. -/
def CameraModel.in_range (c : CameraModel) (x0 y0 : ℚ) : Prop :=
  0 ≤ x0 ∧ x0 ≤ c.width ∧ 0 ≤ y0 ∧ y0 ≤ c.height

instance (c : CameraModel) (x0 y0 : ℚ) : Decidable (c.in_range x0 y0) := by
  unfold CameraModel.in_range; infer_instance

-- Helper lemmas ------------------------------------------------------------

theorem vecMul_T_c (c : CameraModel) (a b : ℚ) :
    Matrix.vecMul ![a, b, 1] c.T_c =
      ![a - c.width / 2, c.height / 2 - b, 1] := by
  funext j
  fin_cases j <;>
    simp [CameraModel.T_c, Matrix.vecMul, Matrix.dotProduct,
      Fin.sum_univ_three] <;> ring

theorem vecMul_T_d (c : CameraModel) (a b : ℚ) :
    Matrix.vecMul ![a, b, 1] c.T_d =
      ![a + c.width / 2, c.height / 2 - b, 1] := by
  funext j
  fin_cases j <;>
    simp [CameraModel.T_d, Matrix.vecMul, Matrix.dotProduct,
      Fin.sum_univ_three] <;> ring

theorem T_c_mul_T_d (c : CameraModel) : c.T_c * c.T_d = 1 := by
  ext i j
  fin_cases i <;> fin_cases j <;>
    simp [CameraModel.T_c, CameraModel.T_d, Matrix.mul_apply,
      Fin.sum_univ_three, Matrix.one_apply] <;> ring

theorem T_d_mul_T_c (c : CameraModel) : c.T_d * c.T_c = 1 := by
  ext i j
  fin_cases i <;> fin_cases j <;>
    simp [CameraModel.T_c, CameraModel.T_d, Matrix.mul_apply,
      Fin.sum_univ_three, Matrix.one_apply] <;> ring

/-- The explicit `T_d` is exactly the matrix inverse that
`np.linalg.inv(T_c)` computes. -/
theorem T_d_eq_inv (c : CameraModel) : c.T_d = c.T_c⁻¹ :=
  (Matrix.inv_eq_right_inv (T_c_mul_T_d c)).symm

theorem to_central_ok (c : CameraModel) (x0 y0 : ℚ)
    (h : c.in_range x0 y0) :
    c.to_central x0 y0 = .ok (x0 - c.width / 2, c.height / 2 - y0) := by
  obtain ⟨h1, h2, h3, h4⟩ := h
  unfold CameraModel.to_central
  rw [if_neg (by push_neg; exact ⟨h1, h3⟩), if_neg (by push_neg; exact ⟨h2, h4⟩)]
  simp [vecMul_T_c]

theorem to_default_closed (c : CameraModel) (x y : ℚ) :
    c.to_default x y = (x + c.width / 2, c.height / 2 - y) := by
  unfold CameraModel.to_default
  simp [vecMul_T_d]

theorem obj_angle_ok (c : CameraModel) (x0 y0 : ℚ)
    (h : c.in_range x0 y0) :
    c.obj_angle x0 y0 = .ok (c.tanHalfAov * (x0 - c.width / 2) * 2 / c.width) := by
  unfold CameraModel.obj_angle
  rw [to_central_ok c x0 y0 h]

-- Concrete instances used by witnesses: a camera with width 2, height 2 and
-- tan(aov/2) = 1 (i.e. aov = π/2), combined into a rig with baseline 2.
-- For this camera obj_angle (a, b) = a - 1 on the valid range.

def camW : CameraModel := { width := 2, height := 2, tanHalfAov := 1 }

def rigW : DoubleCameraModel :=
  { left := camW, right := camW, center := camW, d := 2 }

theorem camW_angle (a b : ℚ) (h1 : 0 ≤ a) (h2 : a ≤ 2) (h3 : 0 ≤ b)
    (h4 : b ≤ 2) : camW.obj_angle a b = .ok (a - 1) := by
  rw [obj_angle_ok camW a b ⟨h1, h2, h3, h4⟩]
  norm_num [camW]

-- C1 -----------------------------------------------------------------------

/-- C1: for in-range coordinate pairs — witnessed by the two bearing
computations succeeding with tangents `tl` and `tr` — `obj_dist` raises
`GeometryError` if and only if `tl - tr ≤ 0` (including `tl = tr`), and
otherwise returns exactly `d / (tl - tr)`. -/
theorem obj_dist_iff_geometry (m : DoubleCameraModel) (lc rc : ℚ × ℚ)
    (tl tr : ℚ) (hl : m.left.obj_angle lc.1 lc.2 = .ok tl)
    (hr : m.right.obj_angle rc.1 rc.2 = .ok tr) :
    (m.obj_dist lc rc = .error .geometryError ↔ tl - tr ≤ 0) ∧
    (tl - tr > 0 → m.obj_dist lc rc = .ok (m.d / (tl - tr))) := by
  unfold DoubleCameraModel.obj_dist
  rw [hl, hr]
  dsimp only
  by_cases h : tl - tr ≤ 0
  · rw [if_pos h]
    exact ⟨⟨fun _ => h, fun _ => rfl⟩, fun hgt => absurd hgt (not_lt.mpr h)⟩
  · rw [if_neg h]
    exact ⟨by simp [h], fun _ => rfl⟩

/-- C1 witness: on the concrete rig, left pixel (2,0) has tangent 1, right
pixel (0,0) has tangent -1, and the claim instantiates there. -/
theorem obj_dist_iff_geometry_witness :
    (rigW.obj_dist (2, 0) (0, 0) = .error .geometryError ↔ (1 : ℚ) - (-1) ≤ 0) ∧
    ((1 : ℚ) - (-1) > 0 → rigW.obj_dist (2, 0) (0, 0) = .ok (rigW.d / (1 - (-1)))) :=
  obj_dist_iff_geometry rigW (2, 0) (0, 0) 1 (-1)
    (by rw [show rigW.left = camW from rfl,
          camW_angle 2 0 (by norm_num) (by norm_num) (by norm_num) (by norm_num)]
        norm_num)
    (by rw [show rigW.right = camW from rfl,
          camW_angle 0 0 (by norm_num) (by norm_num) (by norm_num) (by norm_num)]
        norm_num)

-- C4 -----------------------------------------------------------------------

/-- C4: for a camera with positive dimensions and an in-range pixel
`(x0, y0)`, `to_central` succeeds and `to_default` of its result gives back
exactly `(x0, y0)`: the two affine transforms are exact inverses on the
valid range. -/
theorem to_default_to_central_round_trip (c : CameraModel) (x0 y0 : ℚ)
    (hw : 0 < c.width) (hh : 0 < c.height) (h : c.in_range x0 y0) :
    ∃ p, c.to_central x0 y0 = .ok p ∧ c.to_default p.1 p.2 = (x0, y0) := by
  refine ⟨_, to_central_ok c x0 y0 h, ?_⟩
  rw [to_default_closed]
  simp only [Prod.mk.injEq]
  constructor <;> ring

/-- C4 witness: round trip at pixel (2, 1) of the concrete camera. -/
theorem to_default_to_central_round_trip_witness :
    ∃ p, camW.to_central 2 1 = .ok p ∧ camW.to_default p.1 p.2 = (2, 1) :=
  to_default_to_central_round_trip camW 2 1 (by norm_num [camW])
    (by norm_num [camW]) (by constructor <;> norm_num [camW])

-- C5 -----------------------------------------------------------------------

/-- C5: on the valid range, `obj_angle` equals
`tan(aov/2) * 2 * (x0 - width/2) / width` — linear in the Central-CS
abscissa; in particular it is 0 at `x0 = width/2` and exactly `tan(aov/2)`
at `x0 = width`, for every in-range `y`. -/
theorem obj_angle_linear (c : CameraModel) (hw : 0 < c.width) :
    (∀ x0 y0, c.in_range x0 y0 →
        c.obj_angle x0 y0 =
          .ok (c.tanHalfAov * (2 * (x0 - c.width / 2) / c.width))) ∧
    (∀ y, 0 ≤ y → y ≤ c.height →
        c.obj_angle (c.width / 2) y = .ok 0) ∧
    (∀ y, 0 ≤ y → y ≤ c.height →
        c.obj_angle c.width y = .ok c.tanHalfAov) := by
  refine ⟨fun x0 y0 h => ?_, fun y hy1 hy2 => ?_, fun y hy1 hy2 => ?_⟩
  · rw [obj_angle_ok c x0 y0 h]
    congr 1
    ring
  · rw [obj_angle_ok c (c.width / 2) y
      ⟨by positivity, by linarith, hy1, hy2⟩]
    congr 1
    ring
  · rw [obj_angle_ok c c.width y ⟨le_of_lt hw, le_refl _, hy1, hy2⟩]
    congr 1
    rw [div_eq_iff (ne_of_gt hw)]
    ring

/-- C5 witness: instantiated at the concrete camera (width 2, height 2,
tan(aov/2) = 1). -/
theorem obj_angle_linear_witness :
    (∀ x0 y0, camW.in_range x0 y0 →
        camW.obj_angle x0 y0 =
          .ok (camW.tanHalfAov * (2 * (x0 - camW.width / 2) / camW.width))) ∧
    (∀ y, 0 ≤ y → y ≤ camW.height →
        camW.obj_angle (camW.width / 2) y = .ok 0) ∧
    (∀ y, 0 ≤ y → y ≤ camW.height →
        camW.obj_angle camW.width y = .ok camW.tanHalfAov) :=
  obj_angle_linear camW (by norm_num [camW])

-- C6 -----------------------------------------------------------------------

/-- C6: for a camera with positive dimensions, `to_central` raises
`RangeError` exactly when `x0 < 0`, `y0 < 0`, `x0 > width` or `y0 > height`;
it accepts the boundary points `(0,0)` and `(width, height)` and rejects
`(-1,0)`, `(0,-1)`, `(width+1,0)` and `(0,height+1)`. -/
theorem to_central_range_check (c : CameraModel) (hw : 0 < c.width)
    (hh : 0 < c.height) :
    (∀ x0 y0, c.to_central x0 y0 = .error .rangeError ↔
        x0 < 0 ∨ y0 < 0 ∨ x0 > c.width ∨ y0 > c.height) ∧
    c.to_central 0 0 = .ok (0 - c.width / 2, c.height / 2 - 0) ∧
    c.to_central c.width c.height =
      .ok (c.width - c.width / 2, c.height / 2 - c.height) ∧
    c.to_central (-1) 0 = .error .rangeError ∧
    c.to_central 0 (-1) = .error .rangeError ∧
    c.to_central (c.width + 1) 0 = .error .rangeError ∧
    c.to_central 0 (c.height + 1) = .error .rangeError := by
  have key : ∀ x0 y0, c.to_central x0 y0 = .error .rangeError ↔
      x0 < 0 ∨ y0 < 0 ∨ x0 > c.width ∨ y0 > c.height := by
    intro x0 y0
    unfold CameraModel.to_central
    by_cases h1 : x0 < 0 ∨ y0 < 0
    · rw [if_pos h1]
      simp only [true_iff]
      tauto
    · rw [if_neg h1]
      by_cases h2 : x0 > c.width ∨ y0 > c.height
      · rw [if_pos h2]
        simp only [true_iff]
        tauto
      · rw [if_neg h2]
        simp only [reduceCtorEq, false_iff]
        tauto
  refine ⟨key, ?_, ?_, ?_, ?_, ?_, ?_⟩
  · exact to_central_ok c 0 0 ⟨le_refl _, le_of_lt hw, le_refl _, le_of_lt hh⟩
  · exact to_central_ok c c.width c.height
      ⟨le_of_lt hw, le_refl _, le_of_lt hh, le_refl _⟩
  · exact (key (-1) 0).mpr (Or.inl (by norm_num))
  · exact (key 0 (-1)).mpr (Or.inr (Or.inl (by norm_num)))
  · exact (key (c.width + 1) 0).mpr (Or.inr (Or.inr (Or.inl (by linarith))))
  · exact (key 0 (c.height + 1)).mpr (Or.inr (Or.inr (Or.inr (by linarith))))

/-- C6 witness: instantiated at the concrete 2×2 camera. -/
theorem to_central_range_check_witness :
    (∀ x0 y0, camW.to_central x0 y0 = .error .rangeError ↔
        x0 < 0 ∨ y0 < 0 ∨ x0 > camW.width ∨ y0 > camW.height) ∧
    camW.to_central 0 0 = .ok (0 - camW.width / 2, camW.height / 2 - 0) ∧
    camW.to_central camW.width camW.height =
      .ok (camW.width - camW.width / 2, camW.height / 2 - camW.height) ∧
    camW.to_central (-1) 0 = .error .rangeError ∧
    camW.to_central 0 (-1) = .error .rangeError ∧
    camW.to_central (camW.width + 1) 0 = .error .rangeError ∧
    camW.to_central 0 (camW.height + 1) = .error .rangeError :=
  to_central_range_check camW (by norm_num [camW]) (by norm_num [camW])

-- C8 -----------------------------------------------------------------------

/-- C8: `to_default` performs no validation and is total — for every input
`(x, y)`, in or out of the pixel bounds, it returns the Central→Default
affine image `(x + width/2, height/2 - y)`. -/
theorem to_default_total_affine (c : CameraModel) (x y : ℚ) :
    c.to_default x y = (x + c.width / 2, c.height / 2 - y) :=
  to_default_closed c x y

-- More helper lemmas --------------------------------------------------------

theorem obj_dist_eq (m : DoubleCameraModel) (lc rc : ℚ × ℚ) (tl tr : ℚ)
    (hl : m.left.obj_angle lc.1 lc.2 = .ok tl)
    (hr : m.right.obj_angle rc.1 rc.2 = .ok tr) (h : 0 < tl - tr) :
    m.obj_dist lc rc = .ok (m.d / (tl - tr)) := by
  unfold DoubleCameraModel.obj_dist
  rw [hl]
  dsimp only
  rw [hr]
  dsimp only
  rw [if_neg (not_le.mpr h)]

theorem obj_coords_eq (m : DoubleCameraModel) (lc rc : ℚ × ℚ) (tl D : ℚ)
    (hl : m.left.obj_angle lc.1 lc.2 = .ok tl)
    (hD : m.obj_dist lc rc = .ok D) :
    m.obj_coords lc rc =
      .ok (truncInt ((m.center.to_default
            ((tl - m.d / 2 / D) / m.center.tanHalfAov * m.center.width / 2)
            0).1),
          truncInt ((lc.2 + rc.2) / 2), D) := by
  unfold DoubleCameraModel.obj_coords
  rw [hD]
  dsimp only
  rw [hl]

theorem obj_dist_err_eq (m : DoubleCameraModel) (lc rc : ℚ × ℚ) (tl tr : ℚ)
    (hl : m.left.obj_angle lc.1 lc.2 = .ok tl)
    (hr : m.right.obj_angle rc.1 rc.2 = .ok tr) :
    m.obj_dist_err lc rc = .ok (Real.sqrt
      (((m.d / (tl - tr) ^ 2 * m.left.obj_angle_err) ^ 2 +
        (m.d / (tl - tr) ^ 2 * m.right.obj_angle_err) ^ 2 : ℚ))) := by
  unfold DoubleCameraModel.obj_dist_err
  rw [hl]
  dsimp only
  rw [hr]

-- C2 -----------------------------------------------------------------------

/-- C2: whenever `obj_dist` succeeds with depth `D` (and `tl` is the left
camera's bearing tangent), `obj_coords` returns the triple whose first entry
is the truncated Default-CS abscissa obtained by mapping the re-centered
tangent `tl - (d/2)/D` through the center camera's angle formula and
`to_default`, whose second entry is the truncated arithmetic mean of the two
input ordinates, and whose third entry is `D` itself. -/
theorem obj_coords_spec (m : DoubleCameraModel) (lc rc : ℚ × ℚ) (tl D : ℚ)
    (hl : m.left.obj_angle lc.1 lc.2 = .ok tl)
    (hD : m.obj_dist lc rc = .ok D) :
    m.obj_coords lc rc =
      .ok (truncInt ((m.center.to_default
            ((tl - m.d / 2 / D) / m.center.tanHalfAov * m.center.width / 2)
            0).1),
          truncInt ((lc.2 + rc.2) / 2), D) :=
  obj_coords_eq m lc rc tl D hl hD

/-- C2 witness: on the concrete rig with left pixel (2,0) and right pixel
(0,1) the depth is 1 and the returned triple is (1, 0, 1) — in particular
the averaged ordinate 1/2 truncates to 0. -/
theorem obj_coords_spec_witness :
    rigW.obj_coords (2, 0) (0, 1) = .ok (1, 0, 1) := by
  have hl : rigW.left.obj_angle (2 : ℚ) (0 : ℚ) = .ok 1 := by
    rw [show rigW.left = camW from rfl,
      camW_angle 2 0 (by norm_num) (by norm_num) (by norm_num) (by norm_num)]
    norm_num
  have hr : rigW.right.obj_angle (0 : ℚ) (1 : ℚ) = .ok (-1) := by
    rw [show rigW.right = camW from rfl,
      camW_angle 0 1 (by norm_num) (by norm_num) (by norm_num) (by norm_num)]
    norm_num
  have hD : rigW.obj_dist (2, 0) (0, 1) = .ok 1 := by
    rw [obj_dist_eq rigW (2, 0) (0, 1) 1 (-1) hl hr (by norm_num)]
    norm_num [rigW]
  rw [obj_coords_spec rigW (2, 0) (0, 1) 1 1 hl hD]
  norm_num [truncInt, to_default_closed, rigW, camW]

-- C9 -----------------------------------------------------------------------

/-- C9: with a positive baseline, any value `obj_dist` returns without
raising is strictly positive, and so is the depth component of any triple
returned by `obj_coords`. -/
theorem obj_dist_positive (m : DoubleCameraModel) (hd : 0 < m.d)
    (lc rc : ℚ × ℚ) :
    (∀ v, m.obj_dist lc rc = .ok v → 0 < v) ∧
    (∀ p : ℤ × ℤ × ℚ, m.obj_coords lc rc = .ok p → 0 < p.2.2) := by
  have key : ∀ v, m.obj_dist lc rc = .ok v → 0 < v := by
    intro v hv
    unfold DoubleCameraModel.obj_dist at hv
    cases hL : m.left.obj_angle lc.1 lc.2 with
    | error e => rw [hL] at hv; exact absurd hv (by simp)
    | ok tl =>
      rw [hL] at hv
      dsimp only at hv
      cases hR : m.right.obj_angle rc.1 rc.2 with
      | error e => rw [hR] at hv; exact absurd hv (by simp)
      | ok tr =>
        rw [hR] at hv
        dsimp only at hv
        by_cases h : tl - tr ≤ 0
        · rw [if_pos h] at hv
          exact absurd hv (by simp)
        · rw [if_neg h] at hv
          have hveq : m.d / (tl - tr) = v := by
            simpa using hv
          rw [← hveq]
          exact div_pos hd (sub_pos.mpr (not_le.mp (by simpa [sub_pos] using h)))
  refine ⟨key, fun p hp => ?_⟩
  unfold DoubleCameraModel.obj_coords at hp
  cases hD : m.obj_dist lc rc with
  | error e => rw [hD] at hp; exact absurd hp (by simp)
  | ok dist =>
    rw [hD] at hp
    dsimp only at hp
    cases hL : m.left.obj_angle lc.1 lc.2 with
    | error e => rw [hL] at hp; exact absurd hp (by simp)
    | ok tl =>
      rw [hL] at hp
      dsimp only at hp
      have hpd : p.2.2 = dist := by
        have := (Except.ok.inj hp).symm
        rw [this]
      rw [hpd]
      exact key dist hD

/-- C9 witness: instantiated on the concrete rig, whose baseline is 2. -/
theorem obj_dist_positive_witness :
    (∀ v, rigW.obj_dist (2, 0) (0, 0) = .ok v → 0 < v) ∧
    (∀ p : ℤ × ℤ × ℚ, rigW.obj_coords (2, 0) (0, 0) = .ok p → 0 < p.2.2) :=
  obj_dist_positive rigW (by norm_num [rigW]) (2, 0) (0, 0)

-- C10 ----------------------------------------------------------------------

/-- C10: the integer conversion applied by `obj_coords` truncates toward
zero: `truncInt q` is the sign of `q` times the floor of `|q|` (the
fractional part is discarded), so 1/2 yields 0, 1023.9 yields 1023, -1/2
yields 0; a full `obj_coords` run whose averaged ordinate is 1/2 returns
ordinate 0. -/
theorem truncInt_toward_zero :
    (∀ q : ℚ, truncInt q = q.num.sign * ⌊|q|⌋) ∧
    truncInt (1 / 2) = 0 ∧
    truncInt (10239 / 10) = 1023 ∧
    truncInt (-(1 / 2)) = 0 ∧
    rigW.obj_coords (2, 1) (0, 0) = .ok (1, 0, 1) := by
  have key : ∀ q : ℚ, truncInt q = q.num.sign * ⌊|q|⌋ := by
    intro q
    rcases lt_trichotomy q 0 with h | h | h
    · rw [truncInt, if_neg (not_le.mpr h), abs_of_neg h]
      have hs : q.num.sign = -1 :=
        Int.sign_eq_neg_one_iff_neg.mpr (Rat.num_neg.mpr h)
      rw [hs, Int.floor_neg, neg_one_mul, neg_neg]
    · subst h
      norm_num [truncInt]
    · rw [truncInt, if_pos (le_of_lt h), abs_of_pos h]
      have hs : q.num.sign = 1 :=
        Int.sign_eq_one_iff_pos.mpr (Rat.num_pos.mpr h)
      rw [hs, one_mul]
  have hl : rigW.left.obj_angle (2 : ℚ) (1 : ℚ) = .ok 1 := by
    rw [show rigW.left = camW from rfl,
      camW_angle 2 1 (by norm_num) (by norm_num) (by norm_num) (by norm_num)]
    norm_num
  have hr : rigW.right.obj_angle (0 : ℚ) (0 : ℚ) = .ok (-1) := by
    rw [show rigW.right = camW from rfl,
      camW_angle 0 0 (by norm_num) (by norm_num) (by norm_num) (by norm_num)]
    norm_num
  have hD : rigW.obj_dist (2, 1) (0, 0) = .ok 1 := by
    rw [obj_dist_eq rigW (2, 1) (0, 0) 1 (-1) hl hr (by norm_num)]
    norm_num [rigW]
  refine ⟨key, by norm_num [truncInt], by norm_num [truncInt], by norm_num [truncInt], ?_⟩
  rw [obj_coords_eq rigW (2, 1) (0, 0) 1 1 hl hD]
  norm_num [truncInt, to_default_closed, rigW, camW]

-- C3 -----------------------------------------------------------------------

/-- C3 counterexample: on the concrete rig the in-range pixels (0,0) left and
(2,0) right give tangents -1 and 1, so tl - tr = -2 ≤ 0, yet `obj_dist_err`
returns the numeric value sqrt(1/2) instead of raising `GeometryError`:
the source never calls `obj_dist` from `obj_dist_err` and performs no
convergence check there. -/
theorem obj_dist_err_no_raise_counterexample :
    rigW.left.obj_angle (0 : ℚ) (0 : ℚ) = .ok (-1) ∧
    rigW.right.obj_angle (2 : ℚ) (0 : ℚ) = .ok 1 ∧
    ((-1 : ℚ) - 1 ≤ 0) ∧
    rigW.obj_dist_err (0, 0) (2, 0) = .ok (Real.sqrt ((1 / 2 : ℚ) : ℝ)) := by
  have hl : rigW.left.obj_angle (0 : ℚ) (0 : ℚ) = .ok (-1) := by
    rw [show rigW.left = camW from rfl,
      camW_angle 0 0 (by norm_num) (by norm_num) (by norm_num) (by norm_num)]
    norm_num
  have hr : rigW.right.obj_angle (2 : ℚ) (0 : ℚ) = .ok 1 := by
    rw [show rigW.right = camW from rfl,
      camW_angle 2 0 (by norm_num) (by norm_num) (by norm_num) (by norm_num)]
    norm_num
  refine ⟨hl, hr, by norm_num, ?_⟩
  rw [obj_dist_err_eq rigW (0, 0) (2, 0) (-1) 1 hl hr]
  norm_num [rigW, camW, CameraModel.obj_angle_err]

/-- C3 (amended): for in-range coordinate pairs whose tangents satisfy
`tl - tr < 0`, `obj_dist_err` does not raise `GeometryError`: it performs no
convergence check and never calls `obj_dist`, returning the root-sum-square
error value computed from `(tl - tr)²`; only `RangeError` from the
coordinate conversion can propagate through it. -/
theorem obj_dist_err_diverging_returns (m : DoubleCameraModel)
    (lc rc : ℚ × ℚ) (tl tr : ℚ)
    (hl : m.left.obj_angle lc.1 lc.2 = .ok tl)
    (hr : m.right.obj_angle rc.1 rc.2 = .ok tr) (h : tl - tr < 0) :
    m.obj_dist_err lc rc = .ok (Real.sqrt
      (((m.d / (tl - tr) ^ 2 * m.left.obj_angle_err) ^ 2 +
        (m.d / (tl - tr) ^ 2 * m.right.obj_angle_err) ^ 2 : ℚ))) :=
  obj_dist_err_eq m lc rc tl tr hl hr

/-- C3 witness: the amended statement instantiated at the diverging input
above. -/
theorem obj_dist_err_diverging_returns_witness :
    rigW.obj_dist_err (0, 0) (2, 0) = .ok (Real.sqrt
      (((rigW.d / ((-1 : ℚ) - 1) ^ 2 * rigW.left.obj_angle_err) ^ 2 +
        (rigW.d / ((-1 : ℚ) - 1) ^ 2 * rigW.right.obj_angle_err) ^ 2 : ℚ))) :=
  obj_dist_err_diverging_returns rigW (0, 0) (2, 0) (-1) 1
    (by rw [show rigW.left = camW from rfl,
          camW_angle 0 0 (by norm_num) (by norm_num) (by norm_num) (by norm_num)]
        norm_num)
    (by rw [show rigW.right = camW from rfl,
          camW_angle 2 0 (by norm_num) (by norm_num) (by norm_num) (by norm_num)]
        norm_num)
    (by norm_num)

-- C7 -----------------------------------------------------------------------

/-- C7: when the left and right cameras are the identical model,
`obj_dist_err` is symmetric under swapping its two coordinate-pair
arguments: any value it returns on (a, b) it also returns on (b, a). -/
theorem obj_dist_err_swap_symm (m : DoubleCameraModel) (a b : ℚ × ℚ)
    (hLR : m.left = m.right) (v : ℝ) (hv : m.obj_dist_err a b = .ok v) :
    m.obj_dist_err b a = .ok v := by
  unfold DoubleCameraModel.obj_dist_err at hv ⊢
  cases hA : m.left.obj_angle a.1 a.2 with
  | error e =>
    rw [hA] at hv
    exact absurd hv (by simp)
  | ok ta =>
    rw [hA] at hv
    dsimp only at hv
    cases hB : m.right.obj_angle b.1 b.2 with
    | error e =>
      rw [hB] at hv
      exact absurd hv (by simp)
    | ok tb =>
      rw [hB] at hv
      dsimp only at hv
      have hA' : m.right.obj_angle a.1 a.2 = .ok ta := by rw [← hLR]; exact hA
      have hB' : m.left.obj_angle b.1 b.2 = .ok tb := by rw [hLR]; exact hB
      rw [hB']
      dsimp only
      rw [hA']
      dsimp only
      rw [← hv]
      have harg : ((m.d / (tb - ta) ^ 2 * m.left.obj_angle_err) ^ 2 +
          (m.d / (tb - ta) ^ 2 * m.right.obj_angle_err) ^ 2 : ℚ) =
          ((m.d / (ta - tb) ^ 2 * m.left.obj_angle_err) ^ 2 +
          (m.d / (ta - tb) ^ 2 * m.right.obj_angle_err) ^ 2 : ℚ) := by
        ring
      rw [harg]

/-- C7 witness: swapping the two concrete argument pairs of the diverging
example returns the same value sqrt(1/2). -/
theorem obj_dist_err_swap_symm_witness :
    rigW.obj_dist_err (2, 0) (0, 0) = .ok (Real.sqrt ((1 / 2 : ℚ) : ℝ)) := by
  have hl : rigW.left.obj_angle (0 : ℚ) (0 : ℚ) = .ok (-1) := by
    rw [show rigW.left = camW from rfl,
      camW_angle 0 0 (by norm_num) (by norm_num) (by norm_num) (by norm_num)]
    norm_num
  have hr : rigW.right.obj_angle (2 : ℚ) (0 : ℚ) = .ok 1 := by
    rw [show rigW.right = camW from rfl,
      camW_angle 2 0 (by norm_num) (by norm_num) (by norm_num) (by norm_num)]
    norm_num
  have hv : rigW.obj_dist_err (0, 0) (2, 0) = .ok (Real.sqrt ((1 / 2 : ℚ) : ℝ)) := by
    rw [obj_dist_err_eq rigW (0, 0) (2, 0) (-1) 1 hl hr]
    norm_num [rigW, camW, CameraModel.obj_angle_err]
  exact obj_dist_err_swap_symm rigW (0, 0) (2, 0) rfl (Real.sqrt ((1 / 2 : ℚ) : ℝ)) hv
